import Mathlib

/-!
Verification development for the multi-agent orchestration core of the
pharmAI backend (`ai_agent/agents/all_agents.py`, `ai_agent/agents/invoke_tools.py`).

The embedding models:
* the bounded reasoning loop shared by the five data-domain specialized agents
  (`EximTradeAgentExecutor.invoke` and its four clones), with the reasoning
  engine abstracted as a function from the accumulated scratchpad to a response;
* the `WebIntelligenceAgentExecutor.invoke` variant, whose `raw_data` is an
  accumulating string-keyed dictionary;
* the Master dispatcher `MasterAgentExcturor.invoke` generator: report-cue
  detection, the single planning pass, the fan-out over requested tool calls,
  the streamed synthesis pass, and the conditional report phase.

External effects (the language-model client, the HTTP tools, `json.loads`,
Python `str()` of values, the report renderer) are parameters of the
environment records; everything the Python code itself computes is embedded
as executable Lean definitions.
-/

namespace PharmAI

/-- JSON values, as produced by Python `json.loads` / consumed by `json.dumps`.
Objects are ordered association lists (Python 3.7 dicts preserve insertion
order). -/
inductive Json where
  | null
  | bool (b : Bool)
  | num (n : Int)
  | str (s : String)
  | arr (xs : List Json)
  | obj (fields : List (String × Json))

/-- First-occurrence lookup in an object's field list; `none` models a missing
key (Python `dict.get` returning the default). -/
def lookupField : List (String × Json) → String → Option Json
  | [], _ => none
  | (k, v) :: rest, key => if k = key then some v else lookupField rest key

/-- One entry of an `AIMessage.tool_calls` list: capability name, argument
mapping (kept opaque as text), and the unique call identifier. -/
structure ToolCall where
  name : String
  args : String
  id : String
deriving DecidableEq, Repr

/-- A reasoning-engine response (`AIMessage`): text content plus the
requested capability calls (empty list = terminal answer). -/
structure AIResponse where
  content : String
  tool_calls : List ToolCall
deriving DecidableEq, Repr

/-- Outcome of running one registered tool adapter:
`ok out` is `str(tool_function.invoke(tool_args))`, `exn m` models the adapter
raising an exception whose `str()` is `m`. -/
inductive ToolRun where
  | ok (output : String)
  | exn (msg : String)
deriving DecidableEq, Repr

/-- The environment of one specialized-agent invocation: which capability
names are registered in `self.tool_executor`, what running an adapter yields,
and the external `json.loads` parser (`none` = `JSONDecodeError`). -/
structure AgentEnv where
  registered : String → Bool
  run : String → String → ToolRun
  parse : String → Option Json

/-- A scratchpad turn: a reasoning-output turn (`AIMessage` appended with its
pending tool calls) or a capability-result turn (`ToolMessage` with the call
identifier it answers). -/
inductive Message where
  | ai (content : String) (tool_calls : List ToolCall)
  | tool (content : String) (tool_call_id : String)
deriving DecidableEq, Repr

/-- A single quote character, used inside generated error text. -/
def sq : String := String.singleton (Char.ofNat 39)

/-- The literal capability-not-found error text produced at
`all_agents.py:129` (and identically at `all_agents.py:982`). -/
def notFoundText (name : String) : String :=
  "Error: Tool " ++ sq ++ name ++ sq ++ " not found."

/-- Processing of one requested tool call in the Exim-style loop
(`all_agents.py:113-130`): returns the `result_str` appended to the scratchpad
and the new `raw_data_json`. Every branch of the source overwrites
`raw_data_json`, so the output does not depend on its previous value. -/
def processToolCall (env : AgentEnv) (tc : ToolCall) : String × Json :=
  if env.registered tc.name then
    match env.run tc.name tc.args with
    | .ok out =>
      match env.parse out with
      | some j => (out, j)
      | none => (out, Json.obj [("error", Json.str out)])
    | .exn m =>
      let s := "Error executing tool " ++ tc.name ++ ": " ++ m
      (s, Json.obj [("error", Json.str s)])
  else
    let s := notFoundText tc.name
    (s, Json.obj [("error", Json.str s)])

/-- The `for tool_call in response_ai_message.tool_calls` loop
(`all_agents.py:113-136`): produces the `ToolMessage` turns appended to the
scratchpad, threading `raw_data_json` left to right. -/
def runCalls (env : AgentEnv) (rd : Json) : List ToolCall → List Message × Json
  | [] => ([], rd)
  | tc :: rest =>
    let pr := processToolCall env tc
    let next := runCalls env pr.2 rest
    (Message.tool pr.1 tc.id :: next.1, next.2)

/-- The dictionary returned by a specialized agent's `invoke`. -/
structure AgentResult where
  analysis : String
  raw_data : Json

/-- One specialized-agent invocation: its tool environment, its reasoning
engine (a function of the accumulated scratchpad; the query is fixed for the
invocation), and its agent-specific max-iterations error message. -/
structure AgentPack where
  env : AgentEnv
  engine : List Message → AIResponse
  errMsg : String

/-- The `while count < self.max_iterations` loop of
`EximTradeAgentExecutor.invoke` (`all_agents.py:97-144`), fuel =
remaining iterations. Also counts the reasoning passes performed,
so the pair's second component is the number of iterations used. -/
def invokeLoop (P : AgentPack) : Nat → List Message → Json → Nat → AgentResult × Nat
  | 0, _, rd, used => ({ analysis := P.errMsg, raw_data := rd }, used)
  | fuel + 1, pad, rd, used =>
    let resp := P.engine pad
    if resp.tool_calls = [] then
      ({ analysis := resp.content, raw_data := rd }, used + 1)
    else
      let calls := runCalls P.env rd resp.tool_calls
      invokeLoop P fuel (pad ++ Message.ai resp.content resp.tool_calls :: calls.1)
        calls.2 (used + 1)

/-- `invoke(query)` of an Exim-style specialized agent: empty scratchpad,
`raw_data_json = {}`, `count = 0`. -/
def specInvoke (P : AgentPack) (maxIterations : Nat) : AgentResult × Nat :=
  invokeLoop P maxIterations [] (Json.obj []) 0

/-- The (scratchpad, raw_data) state after `k` completed loop iterations;
frozen once a terminal (no tool calls) response occurs. -/
def stateAfter (P : AgentPack) : Nat → List Message × Json
  | 0 => ([], Json.obj [])
  | k + 1 =>
    let st := stateAfter P k
    let resp := P.engine st.1
    if resp.tool_calls = [] then st
    else
      let calls := runCalls P.env st.2 resp.tool_calls
      (st.1 ++ Message.ai resp.content resp.tool_calls :: calls.1, calls.2)

/-- Exhaustion messages of the five data-domain agents
(`all_agents.py:142,273,409,543,675`). -/
def eximMaxIterMsg : String := "Error: EXIM Trade Agent reached max iterations."

def iqviaMaxIterMsg : String := "Error: IQVIA Agent reached max iterations."

def patentMaxIterMsg : String := "Error: Patent Agent reached max iterations."

def clinicalMaxIterMsg : String := "Error: Clinical Trials Agent reached max iterations."

def internalMaxIterMsg : String := "Error: Internal Knowledge Agent reached max iterations."

/-- `EximTradeAgentExecutor` is constructed with `max_iterations = 2`
(`all_agents.py:27,815`). -/
def eximInvoke (env : AgentEnv) (engine : List Message → AIResponse) : AgentResult × Nat :=
  specInvoke { env := env, engine := engine, errMsg := eximMaxIterMsg } 2

/-! ### Web Intelligence Agent (`WebIntelligenceAgentExecutor.invoke`,
`all_agents.py:741-810`).  Its `raw_data_json` is a Python dict whose values
are the raw result strings, keyed per call; it accumulates across calls
instead of being overwritten. -/

/-- Python dict assignment `d[k] = v`: replaces in place if the key exists,
appends otherwise (insertion order preserved). -/
def insertKV : List (String × String) → String → String → List (String × String)
  | [], k, v => [(k, v)]
  | (k0, v0) :: rest, k, v =>
    if k0 = k then (k0, v) :: rest else (k0, v0) :: insertKV rest k v

/-- Tool environment of the Web Intelligence agent (two registered search
tools; no JSON parsing of tool output happens in this loop). -/
structure WebEnv where
  registered : String → Bool
  run : String → String → ToolRun

/-- Processing of one requested tool call in the web loop
(`all_agents.py:775-801`): the result string, and `raw_data_json` extended
under `"<name>_result_<id>"` on success or `"<name>_error_<id>"` on
exception / tool-not-found. -/
def webProcessToolCall (env : WebEnv) (rd : List (String × String)) (tc : ToolCall) :
    String × List (String × String) :=
  if env.registered tc.name then
    match env.run tc.name tc.args with
    | .ok out => (out, insertKV rd (tc.name ++ "_result_" ++ tc.id) out)
    | .exn m =>
      let s := "Error executing tool " ++ tc.name ++ ": " ++ m
      (s, insertKV rd (tc.name ++ "_error_" ++ tc.id) s)
  else
    let s := notFoundText tc.name
    (s, insertKV rd (tc.name ++ "_error_" ++ tc.id) s)

/-- The web agent's per-iteration loop over requested tool calls. -/
def webRunCalls (env : WebEnv) (rd : List (String × String)) :
    List ToolCall → List Message × List (String × String)
  | [] => ([], rd)
  | tc :: rest =>
    let pr := webProcessToolCall env rd tc
    let next := webRunCalls env pr.2 rest
    (Message.tool pr.1 tc.id :: next.1, next.2)

/-- The web agent's returned dictionary. -/
structure WebResult where
  analysis : String
  raw_data : List (String × String)

/-- One Web Intelligence agent invocation (environment + reasoning engine). -/
structure WebPack where
  env : WebEnv
  engine : List Message → AIResponse

/-- Exhaustion message at `all_agents.py:808`. -/
def webMaxIterMsg : String := "Error: Web Intelligence Agent reached max iterations."

/-- The `while count < self.max_iterations` loop of
`WebIntelligenceAgentExecutor.invoke` (`all_agents.py:753-810`).  On the
terminal path the source first stores the response text under
`raw_data_json["report_content"]` (`all_agents.py:764`) and then returns. -/
def webInvokeLoop (P : WebPack) :
    Nat → List Message → List (String × String) → Nat → WebResult × Nat
  | 0, _, rd, used => ({ analysis := webMaxIterMsg, raw_data := rd }, used)
  | fuel + 1, pad, rd, used =>
    let resp := P.engine pad
    if resp.tool_calls = [] then
      ({ analysis := resp.content,
         raw_data := insertKV rd "report_content" resp.content }, used + 1)
    else
      let calls := webRunCalls P.env rd resp.tool_calls
      webInvokeLoop P fuel (pad ++ Message.ai resp.content resp.tool_calls :: calls.1)
        calls.2 (used + 1)

/-- `invoke(query)` of the web agent; it is constructed with
`max_iterations = 3` (`all_agents.py:684,814`). -/
def webInvoke (P : WebPack) (maxIterations : Nat) : WebResult × Nat :=
  webInvokeLoop P maxIterations [] [] 0

/-- State of (scratchpad, raw_data) after `k` completed web-loop iterations. -/
def webStateAfter (P : WebPack) : Nat → List Message × List (String × String)
  | 0 => ([], [])
  | k + 1 =>
    let st := webStateAfter P k
    let resp := P.engine st.1
    if resp.tool_calls = [] then st
    else
      let calls := webRunCalls P.env st.2 resp.tool_calls
      (st.1 ++ Message.ai resp.content resp.tool_calls :: calls.1, calls.2)

/-! ### The `invoke_*_agent` tool wrappers (`invoke_tools.py`).
Each wrapper either finds its agent uninitialized, catches an exception from
the agent's `invoke`, or returns `json.dumps` of the agent's result; we model
the dict that gets dumped. -/

/-- Possible outcomes of `exim_agent.invoke(query)` as seen by the
`invoke_exim_trade_agent` wrapper (`invoke_tools.py:154-174`). -/
inductive WrapperOutcome where
  | noAgent
  | raised (msg : String)
  | returned (r : AgentResult)

/-- The dict serialized by `invoke_exim_trade_agent` (`invoke_tools.py:160-174`). -/
def eximWrapperResult : WrapperOutcome → List (String × Json)
  | .noAgent =>
    [("analysis", Json.str "Error: The EXIM Trends Agent is not initialized."),
     ("raw_data", Json.obj [("error", Json.str "Agent not initialized")])]
  | .raised m =>
    [("analysis", Json.str ("Error during EXIM Trends Agent invocation: " ++ m)),
     ("raw_data", Json.obj [("error", Json.str m)])]
  | .returned r =>
    [("analysis", Json.str r.analysis), ("raw_data", r.raw_data)]

/-! ### Master dispatcher (`MasterAgentExcturor.invoke`, `all_agents.py:903-1072`). -/

/-- ASCII lowercasing of one character, as Python `str.lower()` acts on the
ASCII range (the report cues and the queries under test are ASCII). -/
def cueLower (c : Char) : Char :=
  if 65 ≤ c.toNat ∧ c.toNat ≤ 90 then Char.ofNat (c.toNat + 32) else c

/-- `user_prompt.lower()` (`all_agents.py:911`). -/
def lowerStr (s : String) : String := String.mk (s.data.map cueLower)

/-- `needle == hay[i:i+len(needle)]` at position 0. -/
def startsWithL : List Char → List Char → Bool
  | _, [] => true
  | [], _ :: _ => false
  | c :: cs, n :: ns => c = n && startsWithL cs ns

/-- Python substring test `needle in hay` (contiguous occurrence). -/
def containsL : List Char → List Char → Bool
  | [], needle => needle.isEmpty
  | c :: rest, needle => startsWithL (c :: rest) needle || containsL rest needle

/-- Python `cue in user_prompt.lower()` (`all_agents.py:913-920`). -/
def hasCue (q cue : String) : Bool := containsL (lowerStr q).data cue.data

/-- `report_requested` (`all_agents.py:909-914`). -/
def reportRequested (q : String) : Bool :=
  hasCue q "report" || hasCue q "pdf" || hasCue q "excel"

/-- `report_format` (`all_agents.py:916-921`): `None` when no cue is present. -/
def reportFormat (q : String) : Option String :=
  if hasCue q "pdf" && hasCue q "excel" then some "both"
  else if hasCue q "excel" then some "excel"
  else if hasCue q "pdf" || hasCue q "report" then some "pdf"
  else none

/-- A Python value returned by a master-level tool (`result` at
`all_agents.py:950`): a string, a dict, or something else (whose type
rendering `f"{type(result)}"` we carry as text). -/
inductive PyVal where
  | str (s : String)
  | dict (fields : List (String × Json))
  | other (typeName : String)

/-- Outcome of `tool_function.invoke(tool_args)` at the master level. -/
inductive MToolRun where
  | ok (v : PyVal)
  | exn (msg : String)

/-- A master-level `ToolMessage`: visible `content` (the Python value
`analysis_content`, not necessarily a string when it came out of a parsed
dict), the call id, the tool `name`, and the full result dict stored in
`additional_kwargs["full_json_for_reporting"]` (kept as the dict that was
`json.dumps`-ed; the dumps/loads round trip is the identity). -/
structure MToolMsg where
  content : Json
  tool_call_id : String
  name : String
  full : List (String × Json)

/-- A turn of the master scratchpad. -/
inductive MMessage where
  | ai (content : String) (tool_calls : List ToolCall)
  | tool (m : MToolMsg)

/-- One entry of `agent_responses_list` (`all_agents.py:1046-1051`). -/
structure ReportEntry where
  agent : String
  analysis : Json
  sources : List String
  raw_data : Json

/-- The arguments of `report_agent.generate_report` (`all_agents.py:1053-1058`). -/
structure ReportInput where
  query : String
  agent_responses : List ReportEntry
  summary : String
  format : String

/-- Outcome of the Report Renderer call: an exception (caught at
`all_agents.py:1066`) or the returned dict. -/
inductive ReportOutcome where
  | exn (msg : String)
  | ret (fields : List (String × Json))

/-- Environment of one Master dispatcher invocation.  `planResp` is the
planning pass's response for this query (`self.agent.invoke` at
`all_agents.py:924`); `streamChunks` gives the contents of the chunks that
`self.final_answer_chain.stream` produces on a given (input, scratchpad)
pair; `pyStr` is Python `str()` of a JSON-like value interpolated into an
f-string; `pyAttrErr q` is the text of the `AttributeError` raised by calling
`.get` on the non-dict value `q`. -/
structure MasterEnv where
  planResp : AIResponse
  streamChunks : String → List MMessage → List String
  registered : String → Bool
  runTool : String → String → MToolRun
  parse : String → Option Json
  pyStr : Json → String
  pyAttrErr : Json → String
  reportGen : ReportInput → ReportOutcome

/-- Processing of one planned tool call in the master fan-out
(`all_agents.py:939-997`): yields `analysis_content` (the visible turn
content) and `full_result_for_reporting`.  The dead branch where `json.loads`
yields a non-dict makes `result_dict.get` raise, which the outer
`except Exception` at `all_agents.py:975` converts to a tool-execution error. -/
def masterProcessToolCall (env : MasterEnv) (tc : ToolCall) : Json × List (String × Json) :=
  if env.registered tc.name then
    match env.runTool tc.name tc.args with
    | .ok (.str s) =>
      match env.parse s with
      | some (Json.obj fields) =>
        ((lookupField fields "analysis").getD (Json.str "No analysis provided."), fields)
      | some j =>
        let m := "Error executing tool " ++ tc.name ++ ": " ++ env.pyAttrErr j
        (Json.str m,
         [("analysis", Json.str m),
          ("raw_data", Json.obj [("error", Json.str (env.pyAttrErr j))])])
      | none =>
        (Json.str s,
         [("analysis", Json.str s),
          ("raw_data", Json.obj [("error", Json.str "String output, not JSON")])])
    | .ok (.dict fields) =>
      ((lookupField fields "analysis").getD (Json.str "No analysis provided."), fields)
    | .ok (.other t) =>
      let s := "Error: Unknown tool output type: " ++ t
      (Json.str s,
       [("analysis", Json.str s),
        ("raw_data", Json.obj [("error", Json.str "Unknown output type")])])
    | .exn m =>
      let s := "Error executing tool " ++ tc.name ++ ": " ++ m
      (Json.str s,
       [("analysis", Json.str s), ("raw_data", Json.obj [("error", Json.str m)])])
  else
    (Json.str (notFoundText tc.name),
     [("analysis", Json.str (notFoundText tc.name)),
      ("raw_data", Json.obj [("error", Json.str "Tool not found")])])

/-- The master scratchpad after Phase 2: the planning `AIMessage` followed by
one `ToolMessage` per planned call (`all_agents.py:936-998`). -/
def masterScratchpad (env : MasterEnv) : List MMessage :=
  MMessage.ai env.planResp.content env.planResp.tool_calls ::
    env.planResp.tool_calls.map (fun tc =>
      let pr := masterProcessToolCall env tc
      MMessage.tool { content := pr.1, tool_call_id := tc.id, name := tc.name, full := pr.2 })

/-- The capability adapters actually executed in Phase 2 (registered names
only; unregistered names never reach `tool_function.invoke`). -/
def masterAdapterCalls (env : MasterEnv) : List (String × String) :=
  (env.planResp.tool_calls.filter (fun tc => env.registered tc.name)).map
    (fun tc => (tc.name, tc.args))

/-- `agent_name_map.get(tool_msg.name, tool_msg.name)` (`all_agents.py:1023-1045`). -/
def agentNameMap (n : String) : String :=
  if n = "invoke_internal_knowledge_agent" then "Internal Knowledge Agent"
  else if n = "invoke_clinical_trials_agent" then "Clinical Trials Agent"
  else if n = "invoke_patent_landscape_agent" then "Patent Landscape Agent"
  else if n = "invoke_exim_trade_agent" then "EXIM Trends Agent"
  else if n = "iqvia_insights" then "IQVIA Insights Agent"
  else if n = "invoke_web_intelligence_agent" then "Web Intelligence Agent"
  else n

/-- The `ToolMessage` turns of a master scratchpad, in order. -/
def mToolMsgs : List MMessage → List MToolMsg
  | [] => []
  | MMessage.ai _ _ :: rest => mToolMsgs rest
  | MMessage.tool t :: rest => t :: mToolMsgs rest

/-- One entry of `agent_responses_list` built from a `ToolMessage`
(`all_agents.py:1032-1051`); `full_json_for_reporting` always parses back
(it is the dumps of a dict), so the `except` fallback at
`all_agents.py:1038-1043` is dead. -/
def reportEntryOf (t : MToolMsg) : ReportEntry :=
  { agent := agentNameMap t.name,
    analysis := (lookupField t.full "analysis").getD (Json.str "No analysis provided."),
    sources := ["Source: " ++ agentNameMap t.name],
    raw_data := (lookupField t.full "raw_data").getD
      (Json.obj [("error", Json.str "No raw data.")]) }

/-- `report_result.get("status") == "success"` (`all_agents.py:1060`). -/
def statusSuccess (fields : List (String × Json)) : Bool :=
  match lookupField fields "status" with
  | some (Json.str s) => s = "success"
  | _ => false

/-- The fixed prefix of the failure fragment (`all_agents.py:1064,1067`). -/
def failHeader : String := "\n\n**📊 Report Generation Failed:**\n"

/-- The fixed prefix of the success fragment (`all_agents.py:1062`). -/
def fileHeader : String := "\n\n**📊 Report File:**\n"

/-- The argument record passed to `generate_report` for a given scratchpad
and synthesized summary. -/
def masterReportInput (q : String) (pad : List MMessage)
    (summary fmt : String) : ReportInput :=
  { query := q,
    agent_responses := (mToolMsgs pad).map reportEntryOf,
    summary := summary,
    format := fmt }

/-- Python `str()` of a value interpolated into an f-string: the identity on
strings, the environment's external rendering on anything else. -/
def pyShow (env : MasterEnv) : Json → String
  | Json.str s => s
  | j => env.pyStr j

/-- `report_confirmation` as computed by Phase 4 when a report was requested
(`all_agents.py:1020-1067`). -/
def reportConfirmation (env : MasterEnv) (q : String) (pad : List MMessage)
    (summary fmt : String) : String :=
  match env.reportGen (masterReportInput q pad summary fmt) with
  | .exn e => failHeader ++ e
  | .ret fields =>
    if statusSuccess fields then
      fileHeader ++ pyShow env ((lookupField fields "filepath").getD
        (Json.str "Failed to get path"))
    else
      failHeader ++ pyShow env ((lookupField fields "message").getD
        (Json.str "Unknown error"))

/-- What one Master dispatcher invocation produces: the text fragments
yielded to the caller, the capability adapters executed, and whether the
Report Renderer was called. -/
structure MasterOutput where
  fragments : List String
  toolsInvoked : List (String × String)
  reportCalled : Bool

/-- `MasterAgentExcturor.invoke(user_prompt)` (`all_agents.py:903-1072`),
as the total function from the invocation environment to the yielded
fragments.  Conversational path: a second, streaming-mode pass over the same
input with the (still empty) scratchpad, nothing else.  Task path: fan-out,
streamed synthesis over (input, scratchpad), then the conditional report
phase appending `report_confirmation` when non-empty. -/
def masterInvoke (env : MasterEnv) (q : String) : MasterOutput :=
  if env.planResp.tool_calls = [] then
    { fragments := env.streamChunks q [], toolsInvoked := [], reportCalled := false }
  else
    let pad := masterScratchpad env
    let chunks := env.streamChunks q pad
    let summary := String.join chunks
    let conf :=
      match reportFormat q with
      | some fmt => if reportRequested q then reportConfirmation env q pad summary fmt else ""
      | none => ""
    { fragments := chunks ++ (if conf = "" then [] else [conf]),
      toolsInvoked := masterAdapterCalls env,
      reportCalled := reportRequested q && (reportFormat q).isSome }

/-! ### Helper lemmas -/

lemma append_ne_empty_left (s t : String) (h : s.data ≠ []) : s ++ t ≠ "" := by
  intro heq
  have hd : s.data ++ t.data = ([] : List Char) := congrArg String.data heq
  rcases List.append_eq_nil.mp hd with ⟨h1, _⟩
  exact h h1

/-- A sample tool environment where nothing is registered. -/
def demoAgentEnv : AgentEnv :=
  { registered := fun _ => false, run := fun _ _ => ToolRun.exn "", parse := fun _ => none }

/-- A sample Master environment whose planning pass requests no tools. -/
def demoMasterEnv : MasterEnv :=
  { planResp := { content := "hi", tool_calls := [] },
    streamChunks := fun _ _ => ["Hello, ", "world"],
    registered := fun _ => false,
    runTool := fun _ _ => MToolRun.exn "",
    parse := fun _ => none,
    pyStr := fun _ => "shown",
    pyAttrErr := fun _ => "attr-error",
    reportGen := fun _ => ReportOutcome.exn "boom" }

/-- A sample Master environment on the task path whose report generation
raises. -/
def demoTaskCall : ToolCall :=
  { name := "iqvia_insights", args := "oncology", id := "call_1" }

def demoTaskEnv : MasterEnv :=
  { planResp := { content := "plan", tool_calls := [demoTaskCall] },
    streamChunks := fun _ _ => ["synth"],
    registered := fun n => n == "iqvia_insights",
    runTool := fun _ _ => MToolRun.ok (PyVal.str "notjson"),
    parse := fun _ => none,
    pyStr := fun _ => "shown",
    pyAttrErr := fun _ => "attr-error",
    reportGen := fun _ => ReportOutcome.exn "disk full" }

/-! ### C1: conversational path -/

/-- C1: when the single planning pass requests zero capability calls, the
dispatcher executes no specialized agent and no capability adapter and does
not call the Report Renderer; it streams the second, streaming-mode pass over
the same input with the empty scratchpad and returns. -/
theorem masterConversationalPath (env : MasterEnv) (q : String)
    (h : env.planResp.tool_calls = []) :
    masterInvoke env q
      = { fragments := env.streamChunks q [], toolsInvoked := [], reportCalled := false } := by
  simp [masterInvoke, h]

/-- Witness for C1 at a concrete environment. -/
theorem masterConversationalPathWitness :
    masterInvoke demoMasterEnv "hello"
      = { fragments := ["Hello, ", "world"], toolsInvoked := [], reportCalled := false } :=
  masterConversationalPath demoMasterEnv "hello" rfl

/-! ### C5: report-format derivation from lexical cues -/

/-- C5: the report format derived from the lexical cue test the dispatcher
performs on the lowercased query: "report" and "excel" without "pdf" gives
"excel"; "pdf" and "excel" gives "both"; with none of the three cues, the
report phase is skipped entirely (Report Renderer never called, no
confirmation fragment, the output is exactly the streamed fragments). -/
theorem reportCueFormats :
    (∀ q : String, hasCue q "report" = true → hasCue q "excel" = true →
        hasCue q "pdf" = false → reportFormat q = some "excel")
  ∧ (∀ q : String, hasCue q "pdf" = true → hasCue q "excel" = true →
        reportFormat q = some "both")
  ∧ (∀ (env : MasterEnv) (q : String),
        hasCue q "report" = false → hasCue q "pdf" = false → hasCue q "excel" = false →
        (masterInvoke env q).reportCalled = false
        ∧ ∃ pad, (masterInvoke env q).fragments = env.streamChunks q pad) := by
  refine ⟨?_, ?_, ?_⟩
  · intro q h1 h2 h3
    simp [reportFormat, h1, h2, h3]
  · intro q h1 h2
    simp [reportFormat, h1, h2]
  · intro env q h1 h2 h3
    have hreq : reportRequested q = false := by simp [reportRequested, h1, h2, h3]
    have hfmt : reportFormat q = none := by simp [reportFormat, h1, h2, h3]
    by_cases hplan : env.planResp.tool_calls = []
    · constructor
      · simp [masterInvoke, hplan]
      · exact ⟨[], by simp [masterInvoke, hplan]⟩
    · constructor
      · simp [masterInvoke, hplan, hreq]
      · exact ⟨masterScratchpad env, by simp [masterInvoke, hplan, hreq, hfmt]⟩

/-- Witness for C5 at concrete queries. -/
theorem reportCueFormatsWitness :
    reportFormat "please send an excel report" = some "excel"
    ∧ reportFormat "need a pdf and an excel file" = some "both"
    ∧ (masterInvoke demoMasterEnv "hello there").reportCalled = false :=
  ⟨reportCueFormats.1 "please send an excel report" (by decide) (by decide) (by decide),
   reportCueFormats.2.1 "need a pdf and an excel file" (by decide) (by decide),
   (reportCueFormats.2.2 demoMasterEnv "hello there" (by decide) (by decide) (by decide)).1⟩

/-! ### C8: capability-not-found handling is deterministic in the name -/

/-- C8: for an unregistered capability name, the not-found handling produces
the literal text `Error: Tool '<name>' not found.` both in the specialized
agents and in the Master fan-out, independent of the arguments and the call
identifier, so two invocations with the same name yield byte-identical error
text. -/
theorem notFoundDeterministic (envE : AgentEnv) (envM : MasterEnv)
    (name a1 a2 i1 i2 : String)
    (h1 : envE.registered name = false) (h2 : envM.registered name = false) :
    (processToolCall envE { name := name, args := a1, id := i1 }).1 = notFoundText name
    ∧ (processToolCall envE { name := name, args := a2, id := i2 }).1 = notFoundText name
    ∧ (masterProcessToolCall envM { name := name, args := a1, id := i1 }).1
        = Json.str (notFoundText name)
    ∧ (masterProcessToolCall envM { name := name, args := a2, id := i2 }).1
        = Json.str (notFoundText name) := by
  refine ⟨?_, ?_, ?_, ?_⟩ <;> simp [processToolCall, masterProcessToolCall, h1, h2]

/-- Witness for C8 at a concrete unregistered name and two argument sets. -/
theorem notFoundDeterministicWitness :
    (processToolCall demoAgentEnv { name := "nope", args := "a", id := "1" }).1
      = notFoundText "nope"
    ∧ (processToolCall demoAgentEnv { name := "nope", args := "b", id := "2" }).1
      = notFoundText "nope" :=
  ⟨(notFoundDeterministic demoAgentEnv demoMasterEnv "nope" "a" "b" "1" "2" rfl rfl).1,
   (notFoundDeterministic demoAgentEnv demoMasterEnv "nope" "a" "b" "1" "2" rfl rfl).2.1⟩

/-! ### C10: fan-out parsing defaults -/

/-- C10: in the Master fan-out, a tool result that is a JSON object (parsed
from a string or already a dict) lacking an "analysis" key yields the default
visible content `No analysis provided.`; a string result that fails JSON
parsing becomes the visible content in full, with the retained full result
recording `raw_data = {"error": "String output, not JSON"}`. -/
theorem fanoutAnalysisDefaults (env : MasterEnv) (tc : ToolCall)
    (hreg : env.registered tc.name = true) :
    (∀ s fields, env.runTool tc.name tc.args = MToolRun.ok (PyVal.str s) →
        env.parse s = some (Json.obj fields) → lookupField fields "analysis" = none →
        (masterProcessToolCall env tc).1 = Json.str "No analysis provided.")
  ∧ (∀ fields, env.runTool tc.name tc.args = MToolRun.ok (PyVal.dict fields) →
        lookupField fields "analysis" = none →
        (masterProcessToolCall env tc).1 = Json.str "No analysis provided.")
  ∧ (∀ s, env.runTool tc.name tc.args = MToolRun.ok (PyVal.str s) →
        env.parse s = none →
        (masterProcessToolCall env tc).1 = Json.str s
        ∧ (masterProcessToolCall env tc).2
            = [("analysis", Json.str s),
               ("raw_data", Json.obj [("error", Json.str "String output, not JSON")])]) := by
  refine ⟨?_, ?_, ?_⟩
  · intro s fields hrun hparse hlook
    simp [masterProcessToolCall, hreg, hrun, hparse, hlook]
  · intro fields hrun hlook
    simp [masterProcessToolCall, hreg, hrun, hlook]
  · intro s hrun hparse
    constructor <;> simp [masterProcessToolCall, hreg, hrun, hparse]

/-- Witness for C10 at a concrete environment whose tool returns a non-JSON
string. -/
theorem fanoutAnalysisDefaultsWitness :
    (masterProcessToolCall demoTaskEnv demoTaskCall).1 = Json.str "notjson"
    ∧ (masterProcessToolCall demoTaskEnv demoTaskCall).2
      = [("analysis", Json.str "notjson"),
         ("raw_data", Json.obj [("error", Json.str "String output, not JSON")])] :=
  (fanoutAnalysisDefaults demoTaskEnv demoTaskCall (by decide)).2.2 "notjson" rfl rfl

/-! ### Loop helper lemmas -/

lemma invokeLoopTerminal (P : AgentPack) (fuel : Nat) (pad : List Message)
    (rd : Json) (used : Nat) (h : (P.engine pad).tool_calls = []) :
    invokeLoop P (fuel + 1) pad rd used
      = ({ analysis := (P.engine pad).content, raw_data := rd }, used + 1) := by
  simp [invokeLoop, h]

lemma webInvokeLoopTerminal (P : WebPack) (fuel : Nat) (pad : List Message)
    (rd : List (String × String)) (used : Nat) (h : (P.engine pad).tool_calls = []) :
    webInvokeLoop P (fuel + 1) pad rd used
      = ({ analysis := (P.engine pad).content,
           raw_data := insertKV rd "report_content" (P.engine pad).content }, used + 1) := by
  simp [webInvokeLoop, h]

/-! ### C3: terminal-state return -/

/-- A web agent whose reasoning engine immediately answers without tools. -/
def demoWebPack : WebPack :=
  { env := { registered := fun _ => false, run := fun _ _ => ToolRun.exn "" },
    engine := fun _ => { content := "hello", tool_calls := [] } }

/-- Counterexample to C3 as stated: the Web Intelligence agent, on a first
reasoning pass with no capability calls and hence with nothing ever captured,
returns a raw_data that is not the empty object — the loop stores the
response text under `report_content` before returning
(`all_agents.py:764`). -/
theorem webReportContentCounterexample :
    (webInvoke demoWebPack 3).1.raw_data = [("report_content", "hello")]
    ∧ ([("report_content", "hello")] : List (String × String)) ≠ [] :=
  ⟨rfl, by decide⟩

/-- C3 (amended): on the first reasoning pass with no capability-call
requests, every data-domain specialized agent returns immediately with the
response text as analysis and the captured raw_data exactly as is; the Web
Intelligence agent returns the captured raw_data with exactly one addition,
the response text stored under the `report_content` key. -/
theorem terminalReturnRawData :
    (∀ (P : AgentPack) (fuel : Nat) (pad : List Message) (rd : Json) (used : Nat),
        (P.engine pad).tool_calls = [] →
        invokeLoop P (fuel + 1) pad rd used
          = ({ analysis := (P.engine pad).content, raw_data := rd }, used + 1))
  ∧ (∀ (W : WebPack) (fuel : Nat) (pad : List Message) (rd : List (String × String))
        (used : Nat),
        (W.engine pad).tool_calls = [] →
        webInvokeLoop W (fuel + 1) pad rd used
          = ({ analysis := (W.engine pad).content,
               raw_data := insertKV rd "report_content" (W.engine pad).content },
             used + 1)) :=
  ⟨fun P fuel pad rd used h => invokeLoopTerminal P fuel pad rd used h,
   fun W fuel pad rd used h => webInvokeLoopTerminal W fuel pad rd used h⟩

/-- An Exim-style agent whose reasoning engine immediately answers. -/
def demoDonePack : AgentPack :=
  { env := demoAgentEnv,
    engine := fun _ => { content := "done", tool_calls := [] },
    errMsg := eximMaxIterMsg }

/-- Witness for C3 (amended) at a concrete pack. -/
theorem terminalReturnRawDataWitness :
    invokeLoop demoDonePack 2 [] (Json.obj []) 0
      = ({ analysis := "done", raw_data := Json.obj [] }, 1) :=
  terminalReturnRawData.1 demoDonePack 1 [] (Json.obj []) 0 rfl

/-! ### C4: analysis is always a (possibly empty) string -/

/-- An Exim-style agent whose reasoning engine answers with empty content. -/
def demoEmptyPack : AgentPack :=
  { env := demoAgentEnv,
    engine := fun _ => { content := "", tool_calls := [] },
    errMsg := eximMaxIterMsg }

/-- Counterexample to C4 as stated: when the reasoning engine returns a
terminal response with empty text content, the agent's returned analysis is
the empty string — the code passes `response_ai_message.content` through
unchecked (`all_agents.py:105`). -/
theorem analysisEmptyCounterexample :
    (specInvoke demoEmptyPack 2).1.analysis = "" := rfl

/-- C4 (amended): analysis is always a string (never null): it is either the
agent's fixed, non-empty max-iterations message, or the reasoning engine's
text content verbatim, which the code does not check for non-emptiness; all
six exhaustion messages and the wrapper error strings are non-empty. -/
theorem analysisAlwaysStringCharacterization :
    (∀ (P : AgentPack) (fuel : Nat) (pad : List Message) (rd : Json) (used : Nat),
        (invokeLoop P fuel pad rd used).1.analysis = P.errMsg
        ∨ ∃ pad2, (invokeLoop P fuel pad rd used).1.analysis = (P.engine pad2).content)
  ∧ (eximMaxIterMsg ≠ "" ∧ iqviaMaxIterMsg ≠ "" ∧ patentMaxIterMsg ≠ ""
      ∧ clinicalMaxIterMsg ≠ "" ∧ internalMaxIterMsg ≠ "" ∧ webMaxIterMsg ≠ "")
  ∧ (∀ m, lookupField (eximWrapperResult (WrapperOutcome.raised m)) "analysis"
        = some (Json.str ("Error during EXIM Trends Agent invocation: " ++ m))
      ∧ ("Error during EXIM Trends Agent invocation: " ++ m) ≠ "")
  ∧ lookupField (eximWrapperResult WrapperOutcome.noAgent) "analysis"
      = some (Json.str "Error: The EXIM Trends Agent is not initialized.") := by
  refine ⟨?_, by refine ⟨?_, ?_, ?_, ?_, ?_, ?_⟩ <;> decide, ?_, by simp [eximWrapperResult, lookupField]⟩
  · intro P fuel
    induction fuel with
    | zero => intro pad rd used; left; rfl
    | succ n ih =>
      intro pad rd used
      by_cases h : (P.engine pad).tool_calls = []
      · right
        exact ⟨pad, by simp [invokeLoop, h]⟩
      · simpa [invokeLoop, h] using ih _ _ _
  · intro m
    refine ⟨by simp [eximWrapperResult, lookupField], ?_⟩
    exact append_ne_empty_left _ m (by decide)

/-- Witness for C4 (amended) at a concrete pack. -/
theorem analysisAlwaysStringCharacterizationWitness :
    (invokeLoop demoEmptyPack 1 [] (Json.obj []) 0).1.analysis = demoEmptyPack.errMsg
    ∨ ∃ pad2, (invokeLoop demoEmptyPack 1 [] (Json.obj []) 0).1.analysis
        = (demoEmptyPack.engine pad2).content :=
  analysisAlwaysStringCharacterization.1 demoEmptyPack 1 [] (Json.obj []) 0

/-! ### Loop/trace agreement -/

lemma stateAfterStep (P : AgentPack) (k : Nat)
    (h : (P.engine (stateAfter P k).1).tool_calls ≠ []) :
    stateAfter P (k + 1)
      = ((stateAfter P k).1
          ++ Message.ai (P.engine (stateAfter P k).1).content
               (P.engine (stateAfter P k).1).tool_calls
            :: (runCalls P.env (stateAfter P k).2
                 (P.engine (stateAfter P k).1).tool_calls).1,
         (runCalls P.env (stateAfter P k).2
           (P.engine (stateAfter P k).1).tool_calls).2) := by
  simp [stateAfter, h]

lemma invokeLoopStateAfter (P : AgentPack) :
    ∀ (fuel k used : Nat),
      (∀ j, k ≤ j → j < k + fuel → (P.engine (stateAfter P j).1).tool_calls ≠ []) →
      invokeLoop P fuel (stateAfter P k).1 (stateAfter P k).2 used
        = ({ analysis := P.errMsg, raw_data := (stateAfter P (k + fuel)).2 }, used + fuel) := by
  intro fuel
  induction fuel with
  | zero => intro k used _; simp [invokeLoop]
  | succ n ih =>
    intro k used H
    have hne : (P.engine (stateAfter P k).1).tool_calls ≠ [] := H k le_rfl (by omega)
    have hstep := stateAfterStep P k hne
    have h1 : invokeLoop P (n + 1) (stateAfter P k).1 (stateAfter P k).2 used
        = invokeLoop P n (stateAfter P (k + 1)).1 (stateAfter P (k + 1)).2 (used + 1) := by
      rw [hstep]
      simp [invokeLoop, hne]
    rw [h1, ih (k + 1) (used + 1) (fun j hj1 hj2 => H j (by omega) (by omega))]
    have h2 : k + 1 + n = k + (n + 1) := by omega
    have h3 : used + 1 + n = used + (n + 1) := by omega
    rw [h2, h3]

lemma webStateAfterStep (P : WebPack) (k : Nat)
    (h : (P.engine (webStateAfter P k).1).tool_calls ≠ []) :
    webStateAfter P (k + 1)
      = ((webStateAfter P k).1
          ++ Message.ai (P.engine (webStateAfter P k).1).content
               (P.engine (webStateAfter P k).1).tool_calls
            :: (webRunCalls P.env (webStateAfter P k).2
                 (P.engine (webStateAfter P k).1).tool_calls).1,
         (webRunCalls P.env (webStateAfter P k).2
           (P.engine (webStateAfter P k).1).tool_calls).2) := by
  simp [webStateAfter, h]

lemma webInvokeLoopStateAfter (P : WebPack) :
    ∀ (fuel k used : Nat),
      (∀ j, k ≤ j → j < k + fuel → (P.engine (webStateAfter P j).1).tool_calls ≠ []) →
      webInvokeLoop P fuel (webStateAfter P k).1 (webStateAfter P k).2 used
        = ({ analysis := webMaxIterMsg, raw_data := (webStateAfter P (k + fuel)).2 },
           used + fuel) := by
  intro fuel
  induction fuel with
  | zero => intro k used _; simp [webInvokeLoop]
  | succ n ih =>
    intro k used H
    have hne : (P.engine (webStateAfter P k).1).tool_calls ≠ [] := H k le_rfl (by omega)
    have hstep := webStateAfterStep P k hne
    have h1 : webInvokeLoop P (n + 1) (webStateAfter P k).1 (webStateAfter P k).2 used
        = webInvokeLoop P n (webStateAfter P (k + 1)).1 (webStateAfter P (k + 1)).2
            (used + 1) := by
      rw [hstep]
      simp [webInvokeLoop, hne]
    rw [h1, ih (k + 1) (used + 1) (fun j hj1 hj2 => H j (by omega) (by omega))]
    have h2 : k + 1 + n = k + (n + 1) := by omega
    have h3 : used + 1 + n = used + (n + 1) := by omega
    rw [h2, h3]

lemma runCallsSndLast (env : AgentEnv) :
    ∀ (tcs : List ToolCall) (rd : Json) (h : tcs ≠ []),
      (runCalls env rd tcs).2 = (processToolCall env (tcs.getLast h)).2 := by
  intro tcs
  induction tcs with
  | nil => intro rd h; exact absurd rfl h
  | cons tc rest ih =>
    intro rd h
    cases rest with
    | nil => simp [runCalls]
    | cons tc2 rest2 =>
      have h2 : tc2 :: rest2 ≠ [] := by simp
      have hlast : (tc :: tc2 :: rest2).getLast h = (tc2 :: rest2).getLast h2 :=
        List.getLast_cons h2
      rw [hlast]
      simpa [runCalls] using ih (processToolCall env tc).2 h2

/-! ### C2: iteration exhaustion -/

/-- C2: for a specialized agent with iteration bound N whose every reasoning
pass requests at least one capability call, `invoke` performs exactly N
iterations and returns the agent's fixed max-iterations message together
with the raw_data state left by the last processed capability call (the
second conjunct shows that state is exactly what the final capability call
captured, for any prior state; the third that it starts as the empty object,
which is returned if no capability result was ever captured).  The same
exhaustion shape holds for the Web Intelligence agent's accumulating
raw_data (fourth conjunct); no exception is raised anywhere — the loop is a
total function into its result. -/
theorem specAgentIterationExhaustion :
    (∀ (P : AgentPack) (N : Nat),
        (∀ k, k < N → (P.engine (stateAfter P k).1).tool_calls ≠ []) →
        specInvoke P N = ({ analysis := P.errMsg, raw_data := (stateAfter P N).2 }, N))
  ∧ (∀ (env : AgentEnv) (rd : Json) (tcs : List ToolCall) (h : tcs ≠ []),
        (runCalls env rd tcs).2 = (processToolCall env (tcs.getLast h)).2)
  ∧ (∀ (P : AgentPack), (stateAfter P 0).2 = Json.obj [])
  ∧ (∀ (W : WebPack) (N : Nat),
        (∀ k, k < N → (W.engine (webStateAfter W k).1).tool_calls ≠ []) →
        webInvoke W N
          = ({ analysis := webMaxIterMsg, raw_data := (webStateAfter W N).2 }, N)) := by
  refine ⟨?_, fun env rd tcs h => runCallsSndLast env tcs rd h, fun _ => rfl, ?_⟩
  · intro P N H
    have := invokeLoopStateAfter P N 0 0 (fun j hj1 hj2 => H j (by omega))
    simpa [specInvoke] using this
  · intro W N H
    have := webInvokeLoopStateAfter W N 0 0 (fun j hj1 hj2 => H j (by omega))
    simpa [webInvoke] using this

/-- The capability call requested by the demo looping engine. -/
def demoEximCall : ToolCall :=
  { name := "get_exim_trade_data", args := "metformin", id := "c1" }

/-- A registered-tool environment returning a fixed JSON payload. -/
def demoEximEnv : AgentEnv :=
  { registered := fun n => n == "get_exim_trade_data",
    run := fun _ _ => ToolRun.ok "payload",
    parse := fun _ => some (Json.obj [("molecule_name", Json.str "metformin")]) }

/-- An Exim-style agent whose reasoning engine always requests the same
capability call. -/
def demoLoopingPack : AgentPack :=
  { env := demoEximEnv,
    engine := fun _ => { content := "", tool_calls := [demoEximCall] },
    errMsg := eximMaxIterMsg }

/-- Witness for C2 at a concrete always-calling engine with bound 2. -/
theorem specAgentIterationExhaustionWitness :
    specInvoke demoLoopingPack 2
      = ({ analysis := eximMaxIterMsg,
           raw_data := (stateAfter demoLoopingPack 2).2 }, 2)
    ∧ (stateAfter demoLoopingPack 2).2
      = Json.obj [("molecule_name", Json.str "metformin")] :=
  ⟨specAgentIterationExhaustion.1 demoLoopingPack 2
      (fun k _ => by simp [demoLoopingPack, demoEximCall]),
   rfl⟩

/-! ### C7: scratchpad structure -/

/-- Well-formed scratchpads: a sequence of blocks, each a reasoning-output
turn followed by capability-result turns whose call identifiers all come
from that turn's requests.  In such a list, the reasoning turn immediately
preceding any capability-result turn is its own block's head. -/
inductive BlocksWF : List Message → Prop
  | nil : BlocksWF []
  | block (c : String) (tcs : List ToolCall) (tools rest : List Message)
      (htools : ∀ m ∈ tools, ∃ s tc, tc ∈ tcs ∧ m = Message.tool s tc.id)
      (hrest : BlocksWF rest) :
      BlocksWF (Message.ai c tcs :: (tools ++ rest))

lemma BlocksWF.concat {xs ys : List Message} (hx : BlocksWF xs) (hy : BlocksWF ys) :
    BlocksWF (xs ++ ys) := by
  induction hx with
  | nil => simpa using hy
  | block c tcs tools rest htools hrest ih =>
    have hassoc : (Message.ai c tcs :: (tools ++ rest)) ++ ys
        = Message.ai c tcs :: (tools ++ (rest ++ ys)) := by simp
    rw [hassoc]
    exact BlocksWF.block c tcs tools (rest ++ ys) htools ih

lemma runCallsMem (env : AgentEnv) :
    ∀ (tcs : List ToolCall) (rd : Json) (m : Message), m ∈ (runCalls env rd tcs).1 →
      ∃ s tc, tc ∈ tcs ∧ m = Message.tool s tc.id := by
  intro tcs
  induction tcs with
  | nil => intro rd m hm; simp [runCalls] at hm
  | cons tc rest ih =>
    intro rd m hm
    simp only [runCalls, List.mem_cons] at hm
    rcases hm with h | h
    · exact ⟨(processToolCall env tc).1, tc, by simp, h⟩
    · rcases ih (processToolCall env tc).2 m h with ⟨s, tc2, htc2, hm2⟩
      exact ⟨s, tc2, by simp [htc2], hm2⟩

lemma stateAfterWF (P : AgentPack) : ∀ k, BlocksWF (stateAfter P k).1 := by
  intro k
  induction k with
  | zero => exact BlocksWF.nil
  | succ n ih =>
    by_cases h : (P.engine (stateAfter P n).1).tool_calls = []
    · simpa [stateAfter, h] using ih
    · rw [stateAfterStep P n h]
      refine BlocksWF.concat ih ?_
      have hb := BlocksWF.block (P.engine (stateAfter P n).1).content
        (P.engine (stateAfter P n).1).tool_calls
        (runCalls P.env (stateAfter P n).2 (P.engine (stateAfter P n).1).tool_calls).1 []
        (fun m hm => runCallsMem P.env _ _ m hm) BlocksWF.nil
      simpa using hb

lemma stateAfterPrefixStep (P : AgentPack) (k : Nat) :
    (stateAfter P k).1 <+: (stateAfter P (k + 1)).1 := by
  by_cases h : (P.engine (stateAfter P k).1).tool_calls = []
  · simp [stateAfter, h]
  · rw [stateAfterStep P k h]
    exact List.prefix_append _ _

/-- C7: throughout the bounded loop, the scratchpad is append-only (each
iteration's scratchpad extends the previous one as a prefix) and decomposes
into blocks in which every capability-result turn carries a call identifier
taken from the immediately preceding reasoning-output turn's requests; the
Master fan-out scratchpad satisfies the same linkage, each ToolMessage's id
coming from the single planning turn's requests. -/
theorem scratchpadAppendOnly :
    (∀ (P : AgentPack) (k : Nat),
        (stateAfter P k).1 <+: (stateAfter P (k + 1)).1 ∧ BlocksWF (stateAfter P k).1)
  ∧ (∀ (env : MasterEnv) (t : MToolMsg), MMessage.tool t ∈ masterScratchpad env →
        ∃ tc, tc ∈ env.planResp.tool_calls ∧ t.tool_call_id = tc.id) := by
  constructor
  · intro P k
    exact ⟨stateAfterPrefixStep P k, stateAfterWF P k⟩
  · intro env t ht
    simp only [masterScratchpad, List.mem_cons, List.mem_map] at ht
    rcases ht with h | ⟨tc, htc, heq⟩
    · exact absurd h (by simp)
    · refine ⟨tc, htc, ?_⟩
      have := congrArg (fun m => match m with
        | MMessage.tool t0 => t0.tool_call_id
        | MMessage.ai _ _ => "") heq
      simpa using this.symm

/-- Witness for C7's Master conjunct at the concrete task environment. -/
theorem scratchpadAppendOnlyWitness :
    ∃ tc, tc ∈ demoTaskEnv.planResp.tool_calls
      ∧ (MToolMsg.mk (Json.str "notjson") "call_1" "iqvia_insights"
          [("analysis", Json.str "notjson"),
           ("raw_data", Json.obj [("error", Json.str "String output, not JSON")])]).tool_call_id
        = tc.id :=
  scratchpadAppendOnly.2 demoTaskEnv
    (MToolMsg.mk (Json.str "notjson") "call_1" "iqvia_insights"
      [("analysis", Json.str "notjson"),
       ("raw_data", Json.obj [("error", Json.str "String output, not JSON")])])
    (List.mem_cons_of_mem _ (List.mem_cons_self _ _))

/-! ### C6: report-generation failures become an appended fragment -/

/-- C6: on the task path with a report requested, if the Report Renderer
raises or returns a non-success status, the dispatcher yields the streamed
synthesis fragments followed by exactly one additional failure fragment; no
exception reaches the consumer (the dispatcher is a total function into its
fragment list, the renderer's exception being absorbed at
`all_agents.py:1066`). -/
theorem reportFailureAppended (env : MasterEnv) (q fmt : String)
    (hplan : env.planResp.tool_calls ≠ [])
    (hreq : reportRequested q = true)
    (hfmt : reportFormat q = some fmt)
    (hfail : ∀ fields,
        env.reportGen (masterReportInput q (masterScratchpad env)
            (String.join (env.streamChunks q (masterScratchpad env))) fmt)
          = ReportOutcome.ret fields →
        statusSuccess fields = false) :
    ∃ reason,
      reportConfirmation env q (masterScratchpad env)
          (String.join (env.streamChunks q (masterScratchpad env))) fmt
        = failHeader ++ reason
      ∧ (masterInvoke env q).fragments
        = env.streamChunks q (masterScratchpad env) ++ [failHeader ++ reason] := by
  have hconf : ∃ reason,
      reportConfirmation env q (masterScratchpad env)
        (String.join (env.streamChunks q (masterScratchpad env))) fmt
        = failHeader ++ reason := by
    cases hout : env.reportGen (masterReportInput q (masterScratchpad env)
        (String.join (env.streamChunks q (masterScratchpad env))) fmt) with
    | exn e => exact ⟨e, by simp [reportConfirmation, hout]⟩
    | ret fields =>
      refine ⟨pyShow env ((lookupField fields "message").getD (Json.str "Unknown error")), ?_⟩
      simp [reportConfirmation, hout, hfail fields hout]
  rcases hconf with ⟨reason, hr⟩
  refine ⟨reason, hr, ?_⟩
  have hne : failHeader ++ reason ≠ "" := append_ne_empty_left _ _ (by decide)
  simp [masterInvoke, hplan, hfmt, hreq, hr, hne]

/-- Witness for C6 at the concrete task environment whose renderer raises. -/
theorem reportFailureAppendedWitness :
    ∃ reason,
      reportConfirmation demoTaskEnv "make a pdf report"
          (masterScratchpad demoTaskEnv)
          (String.join (demoTaskEnv.streamChunks "make a pdf report"
            (masterScratchpad demoTaskEnv))) "pdf"
        = failHeader ++ reason
      ∧ (masterInvoke demoTaskEnv "make a pdf report").fragments
        = demoTaskEnv.streamChunks "make a pdf report" (masterScratchpad demoTaskEnv)
          ++ [failHeader ++ reason] :=
  reportFailureAppended demoTaskEnv "make a pdf report" "pdf" (by simp [demoTaskEnv])
    (by decide) (by decide) (fun fields h => by simp [demoTaskEnv] at h)

/-! ### C9: cue matching is case-insensitive; "report" alone means PDF -/

lemma charOfNatToNat (n : Nat) (h : n.isValidChar) : (Char.ofNat n).toNat = n := by
  simp [Char.ofNat, h, Char.ofNatAux, Char.toNat, UInt32.toNat, BitVec.ofNatLt]

lemma cueLowerIdem (c : Char) : cueLower (cueLower c) = cueLower c := by
  by_cases h : 65 ≤ c.toNat ∧ c.toNat ≤ 90
  · have hval : (c.toNat + 32).isValidChar := Or.inl (by omega)
    have hv : (Char.ofNat (c.toNat + 32)).toNat = c.toNat + 32 := charOfNatToNat _ hval
    have h1 : cueLower c = Char.ofNat (c.toNat + 32) := by simp [cueLower, h]
    rw [h1, cueLower, hv, if_neg (by omega)]
  · have h1 : cueLower c = c := by simp [cueLower, h]
    rw [h1]
    exact h1

lemma lowerStrIdem (s : String) : lowerStr (lowerStr s) = lowerStr s := by
  show String.mk (((s.data.map cueLower)).map cueLower) = String.mk (s.data.map cueLower)
  rw [List.map_map]
  exact congrArg String.mk (List.map_congr_left (fun c _ => cueLowerIdem c))

lemma hasCueLower (q cue : String) : hasCue (lowerStr q) cue = hasCue q cue := by
  show containsL (lowerStr (lowerStr q)).data cue.data = containsL (lowerStr q).data cue.data
  rw [lowerStrIdem]

/-- C9: the dispatcher's report-cue matching is case-insensitive — the cue
test lowercases the query first, so it gives identical answers on a query
and its lowercased form — and a query matching the "report" cue but neither
"pdf" nor "excel" resolves to format "pdf". -/
theorem cueCaseInsensitive :
    (∀ q : String, reportRequested q = reportRequested (lowerStr q)
        ∧ reportFormat q = reportFormat (lowerStr q))
  ∧ (∀ q : String, hasCue q "report" = true → hasCue q "pdf" = false →
        hasCue q "excel" = false → reportFormat q = some "pdf") := by
  constructor
  · intro q
    constructor
    · simp [reportRequested, hasCueLower]
    · simp [reportFormat, hasCueLower]
  · intro q h1 h2 h3
    simp [reportFormat, h1, h2, h3]

/-- Witness for C9 at concrete mixed-case queries. -/
theorem cueCaseInsensitiveWitness :
    reportFormat "Generate a REPORT on metformin"
      = reportFormat (lowerStr "Generate a REPORT on metformin")
    ∧ reportFormat "Generate a REPORT on metformin" = some "pdf" :=
  ⟨(cueCaseInsensitive.1 "Generate a REPORT on metformin").2,
   cueCaseInsensitive.2 "Generate a REPORT on metformin" (by decide) (by decide) (by decide)⟩

end PharmAI
